import Mathlib

/-!
# Verification of the goose platform-extension protocol adapters

Shallow embedding of `crates/goose/src/agents/core_extension.rs` and
`crates/goose/src/agents/extension_manager_extension.rs`.

The two adapters (`CoreClient`, `ExtensionManagerClient`) are stateless: every
operation reads a `PlatformExtensionContext` holding weak references to the two
backing components (Extension Manager, Tool Route Manager) and re-resolves them
on each call.  We embed one adapter call as a pure function of a `World` value
that records, for a single call, the presence/liveness of each weak reference
and the responses of every backing-component operation the call may perform.
Mutating calls additionally return the ordered trace of externally visible
registry/index operations they issued (`Event` list).

Backing components live outside the two embedded source files; their interfaces
are modelled from the collaborator contracts the adapters use (the fields of
`ExtensionManagerState`, `ToolRouteManagerState` and `World` are exactly the
operations the adapter code invokes).
-/

/-- JSON values (`serde_json::Value`), as far as the adapters inspect them. -/
inductive Json where
  | null
  | bool (b : Bool)
  | num (n : Int)
  | str (s : String)
  | arr (elems : List Json)
  | obj (fields : List (String × Json))

/-- `rmcp::model::JsonObject`: a JSON map, kept as an ordered association list. -/
abbrev JsonObject := List (String × Json)

/-- `rmcp::model::Content`, restricted to the only constructor the adapters
build (`Content::text`); opaque content coming back from backing components is
also represented as text. -/
inductive Content where
  | text (s : String)
deriving DecidableEq, Repr

/-- `rmcp::model::CallToolResult` (the `meta` field, always `None` in the
embedded code, is omitted). -/
structure CallToolResult where
  content : List Content
  is_error : Option Bool
  structured_content : Option Json

/-- `CallToolResult::success`: content with `is_error = Some(false)`. -/
def CallToolResult.success (c : List Content) : CallToolResult :=
  { content := c, is_error := some false, structured_content := none }

/-- `mcp_client::Error`, restricted to the only variant the adapters return. -/
inductive TransportError where
  | transportClosed
deriving DecidableEq, Repr

/-- `rmcp::model::ErrorCode`, restricted to the two codes the orchestration
constructs (`INTERNAL_ERROR`, `RESOURCE_NOT_FOUND`). -/
inductive ErrorCode where
  | internalError
  | resourceNotFound
deriving DecidableEq, Repr

/-- `rmcp::model::ErrorData` (the optional `data` field, always `None` in the
embedded code, is omitted). -/
structure ErrorData where
  code : ErrorCode
  message : String
deriving DecidableEq, Repr

/-- `CoreToolError` (core_extension.rs).  Backing-component error payloads are
carried as their rendered message strings. -/
inductive CoreToolError where
  | unknownTool (tool_name : String)
  | managerUnavailable
  | toolRouteManagerUnavailable
  | operationFailed (message : String)
  | deserializationError (message : String)
deriving DecidableEq, Repr

/-- The `thiserror` `Display` rendering of `CoreToolError`
(`error.to_string()`). -/
def CoreToolError.render : CoreToolError → String
  | .unknownTool n => "Unknown tool: " ++ n
  | .managerUnavailable => "Extension manager not available"
  | .toolRouteManagerUnavailable => "Tool route manager not available"
  | .operationFailed m => "Operation failed: " ++ m
  | .deserializationError m => "Failed to deserialize parameters: " ++ m

/-- `ExtensionManagerToolError` (extension_manager_extension.rs). -/
inductive ExtensionManagerToolError where
  | unknownTool (tool_name : String)
  | managerUnavailable
  | missingParameter (param_name : String)
  | invalidAction (action : String)
  | operationFailed (message : String)
  | deserializationError (message : String)
deriving DecidableEq, Repr

/-- The `thiserror` `Display` rendering of `ExtensionManagerToolError`. -/
def ExtensionManagerToolError.render : ExtensionManagerToolError → String
  | .unknownTool n => "Unknown tool: " ++ n
  | .managerUnavailable => "Extension manager not available"
  | .missingParameter p => "Missing required parameter: " ++ p
  | .invalidAction a => "Invalid action: " ++ a ++ ". Must be 'enable' or 'disable'"
  | .operationFailed m => "Extension operation failed: " ++ m
  | .deserializationError m => "Failed to deserialize parameters: " ++ m

/-- `ManageExtensionAction` with serde `rename_all = "lowercase"`. -/
inductive ManageExtensionAction where
  | enable
  | disable
deriving DecidableEq, Repr

instance : BEq ManageExtensionAction := ⟨fun a b => decide (a = b)⟩

/-- `ManageExtensionsParams`. -/
structure ManageExtensionsParams where
  action : ManageExtensionAction
  extension_name : String
deriving DecidableEq, Repr

/-- Modelled from the spec: the configuration value returned by the external
extension catalog (`get_extension_by_name`); the adapters never inspect it,
only pass it to `add_extension`, so it is a tagged opaque value. -/
structure ExtensionConfig where
  tag : String
deriving DecidableEq, Repr

/-- A `PendingHandle` from `dispatch_route_search_tool`: its `result` field
resolves to the search content or a failure message (second phase). -/
structure PendingSearchResult where
  result : Except String (List Content)

/-- Modelled from the spec: the backing Extension Manager's responses, for one
adapter call, to the operations the adapters invoke on it
(`supports_resources`, `list_resources`, `read_resource`,
`search_available_extensions`, `add_extension`, `remove_extension`).
Errors are carried as their rendered message strings. -/
structure ExtensionManagerState where
  supports_resources : Bool
  list_resources_result : Json → Except String (List Content)
  read_resource_result : Json → Except String (List Content)
  search_available_extensions_result : Except String (List Content)
  add_extension_result : ExtensionConfig → Except String Unit
  remove_extension_result : String → Except String Unit

/-- Modelled from the spec: the backing Tool Route Manager's responses
(`dispatch_route_search_tool`, `is_router_functional`,
`get_router_tool_selector`, the latter an `Option` of an opaque selector
handle). -/
structure ToolRouteManagerState where
  dispatch_route_search_tool : JsonObject → Except String PendingSearchResult
  is_router_functional : Bool
  router_tool_selector : Option Unit

/-- The external world one adapter call runs against: the two weak references
of the `PlatformExtensionContext` (`none` = field absent; `some none` = weak
reference no longer upgradable; `some (some s)` = live with behaviour `s`),
the result of the k-th `ToolRouterIndexManager::update_extension_tools` call
issued during the run (keyed also by extension name and index action), and the
pure catalog lookup `get_extension_by_name`. -/
structure World where
  extension_manager : Option (Option ExtensionManagerState)
  tool_route_manager : Option (Option ToolRouteManagerState)
  update_extension_tools : Nat → String → String → Except String Unit
  get_extension_by_name : String → Option ExtensionConfig

/-- `self.context.extension_manager.as_ref().and_then(|w| w.upgrade())`. -/
def emLive (w : World) : Option ExtensionManagerState :=
  w.extension_manager.bind id

/-- `self.context.tool_route_manager.as_ref().and_then(|w| w.upgrade())`. -/
def trmLive (w : World) : Option ToolRouteManagerState :=
  w.tool_route_manager.bind id

/-- Externally visible registry/index operations issued during one
orchestration run, in order. -/
inductive Event where
  | indexUpdate (extension_name action : String)
  | registryAdd (config : ExtensionConfig)
  | registryRemove (extension_name : String)
deriving DecidableEq, Repr

/-- Tool annotations (`rmcp::model::ToolAnnotations`). -/
structure ToolAnnotations where
  title : String
  read_only_hint : Bool
  destructive_hint : Bool
  idempotent_hint : Bool
  open_world_hint : Bool
deriving DecidableEq, Repr

/-- A tool descriptor as advertised by `get_tools`.  The long description
strings and the JSON-schema objects (generated by `schema_for!`, out of the
embedded core's scope) are elided; name and annotations identify a
descriptor. -/
structure Tool where
  name : String
  annotations : ToolAnnotations
deriving DecidableEq, Repr

/-- `rmcp::model::ListToolsResult`. -/
structure ListToolsResult where
  tools : List Tool
  next_cursor : Option String

def READ_RESOURCE_TOOL_NAME : String := "read_resource"
def LIST_RESOURCES_TOOL_NAME : String := "list_resources"
def SEARCH_TOOLS_TOOL_NAME : String := "search_tools"
def SEARCH_AVAILABLE_EXTENSIONS_TOOL_NAME : String := "search_available_extensions"
def MANAGE_EXTENSIONS_TOOL_NAME : String := "manage_extensions"

/-- The `list_resources` descriptor built in `CoreClient::get_tools`. -/
def listResourcesTool : Tool :=
  { name := LIST_RESOURCES_TOOL_NAME,
    annotations :=
      { title := "List resources", read_only_hint := true, destructive_hint := false,
        idempotent_hint := false, open_world_hint := false } }

/-- The `read_resource` descriptor built in `CoreClient::get_tools`. -/
def readResourceTool : Tool :=
  { name := READ_RESOURCE_TOOL_NAME,
    annotations :=
      { title := "Read a resource", read_only_hint := true, destructive_hint := false,
        idempotent_hint := false, open_world_hint := false } }

/-- The `search_tools` descriptor built in `CoreClient::get_tools`. -/
def searchToolsTool : Tool :=
  { name := SEARCH_TOOLS_TOOL_NAME,
    annotations :=
      { title := "LLM search for relevant tools", read_only_hint := true,
        destructive_hint := false, idempotent_hint := false, open_world_hint := false } }

/-- The `search_available_extensions` descriptor built in
`ExtensionManagerClient::get_tools`. -/
def searchAvailableExtensionsTool : Tool :=
  { name := SEARCH_AVAILABLE_EXTENSIONS_TOOL_NAME,
    annotations :=
      { title := "Discover extensions", read_only_hint := true, destructive_hint := false,
        idempotent_hint := false, open_world_hint := false } }

/-- The `manage_extensions` descriptor built in
`ExtensionManagerClient::get_tools`. -/
def manageExtensionsTool : Tool :=
  { name := MANAGE_EXTENSIONS_TOOL_NAME,
    annotations :=
      { title := "Enable or disable an extension", read_only_hint := false,
        destructive_hint := false, idempotent_hint := false, open_world_hint := false } }

/-- `CoreClient::handle_list_resources`. -/
def CoreClient.handle_list_resources (w : World) (arguments : Option JsonObject) :
    Except CoreToolError (List Content) :=
  match w.extension_manager with
  | some weak_ref =>
    match weak_ref with
    | some extension_manager =>
      let params : Json := Json.obj (arguments.getD [])
      match extension_manager.list_resources_result params with
      | .ok content => .ok content
      | .error e => .error (.operationFailed ("Failed to list resources: " ++ e))
    | none => .error .managerUnavailable
  | none => .error .managerUnavailable

/-- `CoreClient::handle_read_resource`. -/
def CoreClient.handle_read_resource (w : World) (arguments : Option JsonObject) :
    Except CoreToolError (List Content) :=
  match w.extension_manager with
  | some weak_ref =>
    match weak_ref with
    | some extension_manager =>
      let params : Json := Json.obj (arguments.getD [])
      match extension_manager.read_resource_result params with
      | .ok content => .ok content
      | .error e => .error (.operationFailed ("Failed to read resource: " ++ e))
    | none => .error .managerUnavailable
  | none => .error .managerUnavailable

/-- `CoreClient::handle_llm_search`: two-phase search dispatch (submission,
then resolution of the pending handle). -/
def CoreClient.handle_llm_search (w : World) (arguments : Option JsonObject) :
    Except CoreToolError (List Content) :=
  match w.tool_route_manager with
  | some weak_ref =>
    match weak_ref with
    | some tool_route_manager =>
      match tool_route_manager.dispatch_route_search_tool (arguments.getD []) with
      | .ok tool_result =>
        match tool_result.result with
        | .ok content => .ok content
        | .error e => .error (.operationFailed e)
      | .error e => .error (.operationFailed e)
    | none => .error .toolRouteManagerUnavailable
  | none => .error .toolRouteManagerUnavailable

/-- `CoreClient::get_tools`: resource tools only when the live Extension
Manager supports resources, then the search tool only when a Tool Route
Manager is live. -/
def CoreClient.get_tools (w : World) : List Tool :=
  let resourceTools : List Tool :=
    match w.extension_manager with
    | some weak_ref =>
      match weak_ref with
      | some extension_manager =>
        if extension_manager.supports_resources then [listResourcesTool, readResourceTool]
        else []
      | none => []
    | none => []
  let searchTools : List Tool :=
    match w.tool_route_manager with
    | some weak_ref => if weak_ref.isSome then [searchToolsTool] else []
    | none => []
  resourceTools ++ searchTools

/-- The dispatch `match name { ... }` inside `CoreClient::call_tool`. -/
def CoreClient.dispatch (w : World) (name : String) (arguments : Option JsonObject) :
    Except CoreToolError (List Content) :=
  if name == LIST_RESOURCES_TOOL_NAME then CoreClient.handle_list_resources w arguments
  else if name == READ_RESOURCE_TOOL_NAME then CoreClient.handle_read_resource w arguments
  else if name == SEARCH_TOOLS_TOOL_NAME then CoreClient.handle_llm_search w arguments
  else .error (.unknownTool name)

/-- `CoreClient::call_tool`: handler errors (and unknown names) are rendered
into an error-flagged `CallToolResult`; the transport result is always `Ok`. -/
def CoreClient.call_tool (w : World) (name : String) (arguments : Option JsonObject) :
    Except TransportError CallToolResult :=
  match CoreClient.dispatch w name arguments with
  | .ok content => .ok (CallToolResult.success content)
  | .error error =>
    .ok { content := [Content.text error.render], is_error := some true,
          structured_content := none }

/-- `CoreClient::list_tools` (protocol level). -/
def CoreClient.list_tools (w : World) : Except TransportError ListToolsResult :=
  .ok { tools := CoreClient.get_tools w, next_cursor := none }

/-- `<CoreClient as McpClientTrait>::list_resources` (protocol level, not
the tool call of the same name). -/
def CoreClient.protocol_list_resources (_w : World) :
    Except TransportError (List Content) :=
  .error .transportClosed

/-- `<CoreClient as McpClientTrait>::read_resource` (protocol level, not the
tool call of the same name). -/
def CoreClient.protocol_read_resource (_w : World) (_uri : String) :
    Except TransportError (List Content) :=
  .error .transportClosed

/-- Association-list field lookup inside a JSON object (first binding wins,
matching `serde_json::Map` access for the objects the adapters receive). -/
def jsonLookup (key : String) : JsonObject → Option Json
  | [] => none
  | (k, v) :: rest => if k == key then some v else jsonLookup key rest

/-- The serde-derived deserializer for `ManageExtensionAction`
(`rename_all = "lowercase"`): only the strings "enable" and "disable" are
accepted; any other string is an unknown-variant error. -/
def parseManageExtensionAction : Json → Except String ManageExtensionAction
  | .str s =>
    if s == "enable" then .ok .enable
    else if s == "disable" then .ok .disable
    else .error ("unknown variant `" ++ s ++ "`, expected `enable` or `disable`")
  | _ => .error "invalid type: expected a string for variant identifier"

/-- The serde-derived deserializer for `ManageExtensionsParams` applied to a
JSON object (`serde_json::from_value(Value::Object(arguments))`): both fields
required, `action` an action variant, `extension_name` a string. -/
def deserializeManageExtensionsParams (o : JsonObject) :
    Except String ManageExtensionsParams :=
  match jsonLookup "action" o with
  | none => .error "missing field `action`"
  | some actionValue =>
    match parseManageExtensionAction actionValue with
    | .error e => .error e
    | .ok action =>
      match jsonLookup "extension_name" o with
      | none => .error "missing field `extension_name`"
      | some (.str s) => .ok { action := action, extension_name := s }
      | some _ => .error "invalid type: expected a string for field `extension_name`"

/-- The index action derived from the requested action in
`manage_extensions_impl` (`if action == Disable { "remove" } else { "add" }`,
computed identically at the pre-sync and post-sync sites). -/
def selectorActionFor (action : ManageExtensionAction) : String :=
  if action == ManageExtensionAction.disable then "remove" else "add"

/-- Whether the pre- or post-sync index update is attempted: a live Tool Route
Manager whose router is functional and which yields a selector. -/
def indexSyncAttempted (trm : Option ToolRouteManagerState) : Bool :=
  match trm with
  | some t => t.is_router_functional && t.router_tool_selector.isSome
  | none => false

/-- The apply-change and post-sync part of
`ExtensionManagerClient::manage_extensions_impl`, entered after the pre-sync
index update (if any) has succeeded.  `events` is the trace so far and `k` the
number of index-update calls already issued. -/
def ExtensionManagerClient.applyChange (w : World) (em : ExtensionManagerState)
    (trm : Option ToolRouteManagerState) (action : ManageExtensionAction)
    (extension_name : String) (events : List Event) (k : Nat) :
    Except ErrorData (List Content) × List Event :=
  if action == ManageExtensionAction.disable then
    match em.remove_extension_result extension_name with
    | .ok _ =>
      (.ok [Content.text
          ("The extension '" ++ extension_name ++ "' has been disabled successfully")],
       events ++ [.registryRemove extension_name])
    | .error e =>
      (.error { code := .internalError, message := e },
       events ++ [.registryRemove extension_name])
  else
    match w.get_extension_by_name extension_name with
    | none =>
      (.error { code := .resourceNotFound,
                message := "Extension '" ++ extension_name ++
                  "' not found. Please check the extension name and try again." },
       events)
    | some config =>
      let eventsAdd := events ++ [.registryAdd config]
      match em.add_extension_result config with
      | .error e => (.error { code := .internalError, message := e }, eventsAdd)
      | .ok _ =>
        if indexSyncAttempted trm then
          let act := selectorActionFor action
          match w.update_extension_tools k extension_name act with
          | .error e =>
            (.error { code := .internalError,
                      message := "Failed to update LLM index: " ++ e },
             eventsAdd ++ [.indexUpdate extension_name act])
          | .ok _ =>
            (.ok [Content.text
                ("The extension '" ++ extension_name ++ "' has been installed successfully")],
             eventsAdd ++ [.indexUpdate extension_name act])
        else
          (.ok [Content.text
              ("The extension '" ++ extension_name ++ "' has been installed successfully")],
           eventsAdd)

/-- `ExtensionManagerClient::manage_extensions_impl`: resolve the Extension
Manager (fatal if gone), resolve the Tool Route Manager (absence skips index
sync), pre-sync the index when the router is functional and a selector exists,
then apply the registry change and, on a successful install, post-sync the
index.  Also returns the ordered trace of registry/index operations issued. -/
def ExtensionManagerClient.manage_extensions_impl (w : World)
    (action : ManageExtensionAction) (extension_name : String) :
    Except ErrorData (List Content) × List Event :=
  match emLive w with
  | none =>
    (.error { code := .internalError,
              message := "Extension manager is no longer available" }, [])
  | some extension_manager =>
    let tool_route_manager := trmLive w
    if indexSyncAttempted tool_route_manager then
      let act := selectorActionFor action
      match w.update_extension_tools 0 extension_name act with
      | .error e =>
        (.error { code := .internalError,
                  message := "Failed to update LLM index: " ++ e },
         [.indexUpdate extension_name act])
      | .ok _ =>
        ExtensionManagerClient.applyChange w extension_manager tool_route_manager
          action extension_name [.indexUpdate extension_name act] 1
    else
      ExtensionManagerClient.applyChange w extension_manager tool_route_manager
        action extension_name [] 0

/-- `ExtensionManagerClient::handle_search_available_extensions`. -/
def ExtensionManagerClient.handle_search_available_extensions (w : World) :
    Except ExtensionManagerToolError (List Content) :=
  match w.extension_manager with
  | some weak_ref =>
    match weak_ref with
    | some extension_manager =>
      match extension_manager.search_available_extensions_result with
      | .ok content => .ok content
      | .error e =>
        .error (.operationFailed ("Failed to search available extensions: " ++ e))
    | none => .error .managerUnavailable
  | none => .error .managerUnavailable

/-- `ExtensionManagerClient::handle_manage_extensions`: missing arguments ⇒
`MissingParameter`; a serde failure ⇒ `DeserializationError`; an orchestration
`ErrorData` ⇒ `OperationFailed` carrying its message. -/
def ExtensionManagerClient.handle_manage_extensions (w : World)
    (arguments : Option JsonObject) :
    Except ExtensionManagerToolError (List Content) × List Event :=
  match arguments with
  | none => (.error (.missingParameter "arguments"), [])
  | some args =>
    match deserializeManageExtensionsParams args with
    | .error e => (.error (.deserializationError e), [])
    | .ok params =>
      match ExtensionManagerClient.manage_extensions_impl w params.action
          params.extension_name with
      | (.ok content, events) => (.ok content, events)
      | (.error error_data, events) =>
        (.error (.operationFailed error_data.message), events)

/-- The dispatch `match name { ... }` inside
`ExtensionManagerClient::call_tool`, with the event trace of the handler. -/
def ExtensionManagerClient.dispatch (w : World) (name : String)
    (arguments : Option JsonObject) :
    Except ExtensionManagerToolError (List Content) × List Event :=
  if name == SEARCH_AVAILABLE_EXTENSIONS_TOOL_NAME then
    (ExtensionManagerClient.handle_search_available_extensions w, [])
  else if name == MANAGE_EXTENSIONS_TOOL_NAME then
    ExtensionManagerClient.handle_manage_extensions w arguments
  else (.error (.unknownTool name), [])

/-- `ExtensionManagerClient::call_tool`: handler errors (and unknown names)
are rendered into an error-flagged `CallToolResult`; the transport result is
always `Ok`. -/
def ExtensionManagerClient.call_tool (w : World) (name : String)
    (arguments : Option JsonObject) :
    (Except TransportError CallToolResult) × List Event :=
  match ExtensionManagerClient.dispatch w name arguments with
  | (.ok content, events) => (.ok (CallToolResult.success content), events)
  | (.error error, events) =>
    (.ok { content := [Content.text error.render], is_error := some true,
           structured_content := none }, events)

/-- `ExtensionManagerClient::get_tools`: a constant two-descriptor list. -/
def ExtensionManagerClient.get_tools (_w : World) : List Tool :=
  [searchAvailableExtensionsTool, manageExtensionsTool]

/-- `ExtensionManagerClient::list_tools` (protocol level). -/
def ExtensionManagerClient.list_tools (w : World) :
    Except TransportError ListToolsResult :=
  .ok { tools := ExtensionManagerClient.get_tools w, next_cursor := none }

/-- `<ExtensionManagerClient as McpClientTrait>::list_resources` (protocol
level). -/
def ExtensionManagerClient.protocol_list_resources (_w : World) :
    Except TransportError (List Content) :=
  .error .transportClosed

/-- `<ExtensionManagerClient as McpClientTrait>::read_resource` (protocol
level). -/
def ExtensionManagerClient.protocol_read_resource (_w : World) (_uri : String) :
    Except TransportError (List Content) :=
  .error .transportClosed

/-! ## Concrete backing-component states used by witnesses and counterexamples -/

/-- A baseline Extension Manager behaviour: no resources, every operation
fails with a stub message. -/
def emStub : ExtensionManagerState :=
  { supports_resources := false,
    list_resources_result := fun _ => .error "stub",
    read_resource_result := fun _ => .error "stub",
    search_available_extensions_result := .error "stub",
    add_extension_result := fun _ => .error "stub",
    remove_extension_result := fun _ => .error "stub" }

/-- A baseline Tool Route Manager behaviour: non-functional, no selector. -/
def trmStub : ToolRouteManagerState :=
  { dispatch_route_search_tool := fun _ => .error "stub",
    is_router_functional := false,
    router_tool_selector := none }

/-- A functional router that does yield a selector. -/
def trmFunctional : ToolRouteManagerState :=
  { trmStub with is_router_functional := true, router_tool_selector := some () }

/-- A router that reports itself functional but yields no selector. -/
def trmFunctionalNoSelector : ToolRouteManagerState :=
  { trmStub with is_router_functional := true, router_tool_selector := none }

/-- A world with neither weak reference present. -/
def wEmpty : World :=
  { extension_manager := none, tool_route_manager := none,
    update_extension_tools := fun _ _ _ => .ok (),
    get_extension_by_name := fun _ => none }

/-- A world whose live Extension Manager supports resources and answers both
resource operations, with no Tool Route Manager. -/
def wResourcesLive : World :=
  { extension_manager := some (some
      { emStub with
        supports_resources := true,
        list_resources_result := fun _ => .ok [Content.text "resource list"],
        read_resource_result := fun _ => .ok [Content.text "resource body"] }),
    tool_route_manager := none,
    update_extension_tools := fun _ _ _ => .ok (),
    get_extension_by_name := fun _ => none }

/-! ## C10 -/

/-- C10: `list_tools` on the Extension Manager adapter is constant: for every
state of the backing components it returns exactly the two descriptors
`search_available_extensions` then `manage_extensions`; any two calls agree;
by contrast the Core adapter's advertised set does vary with live state. -/
theorem C10_extension_manager_list_tools_constant (w w' : World) :
    ExtensionManagerClient.list_tools w =
      .ok { tools := [searchAvailableExtensionsTool, manageExtensionsTool],
            next_cursor := none } ∧
    (ExtensionManagerClient.get_tools w).map Tool.name =
      [SEARCH_AVAILABLE_EXTENSIONS_TOOL_NAME, MANAGE_EXTENSIONS_TOOL_NAME] ∧
    ExtensionManagerClient.list_tools w = ExtensionManagerClient.list_tools w' ∧
    CoreClient.get_tools wEmpty ≠ CoreClient.get_tools wResourcesLive :=
  ⟨rfl, rfl, rfl, by
    have h1 : CoreClient.get_tools wEmpty = [] := rfl
    have h2 : CoreClient.get_tools wResourcesLive = [listResourcesTool, readResourceTool] := rfl
    simp [h1, h2]⟩

/-! ## C1 -/

/-- C1: `call_tool` on either adapter always returns a successful transport
result; an unrecognized tool name yields an error-flagged Call Result whose
content is the rendered `UnknownTool` message containing the name; a handler
failure for a recognized name is rendered the same way. -/
theorem C1_call_tool_uniform_error_rendering (w : World) (n : String)
    (args : Option JsonObject) :
    (∃ r, CoreClient.call_tool w n args = .ok r) ∧
    (∃ r, (ExtensionManagerClient.call_tool w n args).1 = .ok r) ∧
    (n ∉ [LIST_RESOURCES_TOOL_NAME, READ_RESOURCE_TOOL_NAME, SEARCH_TOOLS_TOOL_NAME] →
      CoreClient.call_tool w n args =
        .ok { content := [Content.text ("Unknown tool: " ++ n)], is_error := some true,
              structured_content := none } ∧
      ∃ prefixPart, ("Unknown tool: " ++ n) = prefixPart ++ n) ∧
    (n ∉ [SEARCH_AVAILABLE_EXTENSIONS_TOOL_NAME, MANAGE_EXTENSIONS_TOOL_NAME] →
      (ExtensionManagerClient.call_tool w n args).1 =
        .ok { content := [Content.text ("Unknown tool: " ++ n)], is_error := some true,
              structured_content := none }) ∧
    (∀ e, CoreClient.dispatch w n args = .error e →
      CoreClient.call_tool w n args =
        .ok { content := [Content.text e.render], is_error := some true,
              structured_content := none }) ∧
    (∀ e tr, ExtensionManagerClient.dispatch w n args = (.error e, tr) →
      (ExtensionManagerClient.call_tool w n args).1 =
        .ok { content := [Content.text e.render], is_error := some true,
              structured_content := none }) := by
  refine ⟨?_, ?_, ?_, ?_, ?_, ?_⟩
  · cases h : CoreClient.dispatch w n args <;>
      simp [CoreClient.call_tool, h]
  · rcases h : ExtensionManagerClient.dispatch w n args with ⟨res, tr⟩
    cases res <;> simp [ExtensionManagerClient.call_tool, h]
  · intro hn
    simp only [List.mem_cons, List.not_mem_nil, or_false, not_or] at hn
    obtain ⟨h1, h2, h3⟩ := hn
    refine ⟨?_, ⟨"Unknown tool: ", rfl⟩⟩
    simp [CoreClient.call_tool, CoreClient.dispatch, h1, h2, h3, CoreToolError.render]
  · intro hn
    simp only [List.mem_cons, List.not_mem_nil, or_false, not_or] at hn
    obtain ⟨h1, h2⟩ := hn
    simp [ExtensionManagerClient.call_tool, ExtensionManagerClient.dispatch, h1, h2,
      ExtensionManagerToolError.render]
  · intro e he
    simp [CoreClient.call_tool, he]
  · intro e tr he
    simp [ExtensionManagerClient.call_tool, he]

/-- C1 witness: at a concrete world and the unrecognized name "bogus", both
adapters return the rendered `UnknownTool` Call Result over a successful
transport. -/
theorem C1_witness :
    CoreClient.call_tool wEmpty "bogus" none =
      .ok { content := [Content.text "Unknown tool: bogus"], is_error := some true,
            structured_content := none } ∧
    (ExtensionManagerClient.call_tool wEmpty "bogus" none).1 =
      .ok { content := [Content.text "Unknown tool: bogus"], is_error := some true,
            structured_content := none } := by
  have h := C1_call_tool_uniform_error_rendering wEmpty "bogus" none
  exact ⟨(h.2.2.1 (by decide)).1, h.2.2.2.1 (by decide)⟩

/-! ## C2 -/

/-- Whether a live Extension Manager currently reports that resources are
supported (the gate for the two resource tools in `CoreClient::get_tools`). -/
def resourcesSupported (w : World) : Bool :=
  match emLive w with
  | some em => em.supports_resources
  | none => false

/-- C2: `CoreClient::get_tools` returns exactly the resource tools (iff a live
Extension Manager reports resource support) followed by exactly one search
tool descriptor (iff a Tool Route Manager is live), in declaration order, and
nothing else. -/
theorem C2_core_get_tools_visibility (w : World) :
    CoreClient.get_tools w =
      (if resourcesSupported w then [listResourcesTool, readResourceTool] else []) ++
      (if (trmLive w).isSome then [searchToolsTool] else []) ∧
    (CoreClient.get_tools w).count searchToolsTool =
      (if (trmLive w).isSome then 1 else 0) ∧
    (CoreClient.get_tools w).count listResourcesTool =
      (if resourcesSupported w then 1 else 0) ∧
    (CoreClient.get_tools w).count readResourceTool =
      (if resourcesSupported w then 1 else 0) ∧
    (listResourcesTool ∈ CoreClient.get_tools w ↔ resourcesSupported w = true) ∧
    (readResourceTool ∈ CoreClient.get_tools w ↔ resourcesSupported w = true) ∧
    (searchToolsTool ∈ CoreClient.get_tools w ↔ (trmLive w).isSome = true) ∧
    (CoreClient.get_tools w).all
      (fun t => t == listResourcesTool || t == readResourceTool || t == searchToolsTool)
      = true := by
  have hshape : CoreClient.get_tools w =
      (if resourcesSupported w then [listResourcesTool, readResourceTool] else []) ++
      (if (trmLive w).isSome then [searchToolsTool] else []) := by
    cases hem : w.extension_manager with
    | none =>
      cases htm : w.tool_route_manager with
      | none => simp [CoreClient.get_tools, resourcesSupported, emLive, trmLive, hem, htm]
      | some inner =>
        cases inner <;>
          simp [CoreClient.get_tools, resourcesSupported, emLive, trmLive, hem, htm]
    | some innerEm =>
      cases innerEm with
      | none =>
        cases htm : w.tool_route_manager with
        | none => simp [CoreClient.get_tools, resourcesSupported, emLive, trmLive, hem, htm]
        | some inner =>
          cases inner <;>
            simp [CoreClient.get_tools, resourcesSupported, emLive, trmLive, hem, htm]
      | some em =>
        cases htm : w.tool_route_manager with
        | none =>
          cases hsr : em.supports_resources <;>
            simp [CoreClient.get_tools, resourcesSupported, emLive, trmLive, hem, htm, hsr]
        | some inner =>
          cases inner <;> cases hsr : em.supports_resources <;>
            simp [CoreClient.get_tools, resourcesSupported, emLive, trmLive, hem, htm, hsr]
  refine ⟨hshape, ?_, ?_, ?_, ?_, ?_, ?_, ?_⟩ <;>
    rw [hshape] <;>
    cases hrs : resourcesSupported w <;>
    cases htl : (trmLive w).isSome <;>
    simp <;> decide

/-! ## C7 -/

/-- Dispatching the name `search_tools` on the Core adapter selects the
search handler. -/
theorem core_dispatch_search_tools (w : World) (args : Option JsonObject) :
    CoreClient.dispatch w SEARCH_TOOLS_TOOL_NAME args =
      CoreClient.handle_llm_search w args := rfl

/-- C7: calling `search_tools` with no reachable Tool Route Manager yields an
error-flagged Call Result carrying the `ToolRouteManagerUnavailable` message;
with a reachable manager, a submission-phase failure and a resolution-phase
failure are both mapped to `OperationFailed` with the underlying message
preserved. -/
theorem C7_search_tools_error_mapping (w : World) (args : Option JsonObject) :
    (trmLive w = none →
      CoreClient.call_tool w SEARCH_TOOLS_TOOL_NAME args =
        .ok { content := [Content.text "Tool route manager not available"],
              is_error := some true, structured_content := none }) ∧
    (∀ t, trmLive w = some t →
      (∀ e, t.dispatch_route_search_tool (args.getD []) = .error e →
        CoreClient.handle_llm_search w args = .error (.operationFailed e)) ∧
      (∀ p e, t.dispatch_route_search_tool (args.getD []) = .ok p →
        p.result = .error e →
        CoreClient.handle_llm_search w args = .error (.operationFailed e))) := by
  constructor
  · intro h0
    have hh : CoreClient.handle_llm_search w args = .error .toolRouteManagerUnavailable := by
      cases htm : w.tool_route_manager with
      | none => simp [CoreClient.handle_llm_search, htm]
      | some inner =>
        cases inner with
        | none => simp [CoreClient.handle_llm_search, htm]
        | some t => simp [trmLive, htm] at h0
    have hd : CoreClient.dispatch w SEARCH_TOOLS_TOOL_NAME args =
        .error .toolRouteManagerUnavailable := by
      rw [core_dispatch_search_tools, hh]
    simp [CoreClient.call_tool, hd, CoreToolError.render]
  · intro t ht
    have htm : w.tool_route_manager = some (some t) := by
      cases htm : w.tool_route_manager with
      | none => simp [trmLive, htm] at ht
      | some inner =>
        cases inner with
        | none => simp [trmLive, htm] at ht
        | some t' =>
          have heq : t' = t := by simpa [trmLive, htm] using ht
          rw [heq]
    constructor
    · intro e he
      simp [CoreClient.handle_llm_search, htm, he]
    · intro p e hp he
      simp [CoreClient.handle_llm_search, htm, hp, he]

/-- A world whose Tool Route Manager is live but fails at the submission
phase of the two-phase search dispatch. -/
def wSubmitFail : World :=
  { wEmpty with
    tool_route_manager := some (some
      { trmStub with dispatch_route_search_tool := fun _ => .error "submit failed" }) }

/-- A world whose Tool Route Manager accepts the submission but whose pending
handle resolves to a failure. -/
def wResolveFail : World :=
  { wEmpty with
    tool_route_manager := some (some
      { trmStub with
        dispatch_route_search_tool := fun _ => .ok { result := .error "resolve failed" } }) }

/-- C7 witness: with no Tool Route Manager reachable, `search_tools` returns
the rendered unavailable message; at a live manager whose submission fails and
another whose resolution fails, both map to `OperationFailed`. -/
theorem C7_witness :
    CoreClient.call_tool wEmpty SEARCH_TOOLS_TOOL_NAME none =
      .ok { content := [Content.text "Tool route manager not available"],
            is_error := some true, structured_content := none } ∧
    CoreClient.handle_llm_search wSubmitFail none =
      .error (.operationFailed "submit failed") ∧
    CoreClient.handle_llm_search wResolveFail none =
      .error (.operationFailed "resolve failed") := by
  refine ⟨(C7_search_tools_error_mapping wEmpty none).1 rfl, ?_, ?_⟩
  · exact ((C7_search_tools_error_mapping wSubmitFail none).2 _ rfl).1 "submit failed" rfl
  · exact ((C7_search_tools_error_mapping wResolveFail none).2 _ rfl).2
      { result := .error "resolve failed" } "resolve failed" rfl rfl

/-! ## C3 -/

/-- The apply-change phase only appends to the event trace it is given. -/
theorem applyChange_trace_prefix (w : World) (em : ExtensionManagerState)
    (trm : Option ToolRouteManagerState) (a : ManageExtensionAction)
    (name : String) (events : List Event) (k : Nat) :
    events <+: (ExtensionManagerClient.applyChange w em trm a name events k).2 := by
  unfold ExtensionManagerClient.applyChange
  dsimp only
  split
  · split <;> exact List.prefix_append _ _
  · split
    · exact List.prefix_rfl
    · split
      · exact List.prefix_append _ _
      · split
        · split <;> exact (List.prefix_append _ _).trans (List.prefix_append _ _)
        · exact List.prefix_append _ _

/-- An Extension Manager whose registry removal succeeds. -/
def emRemoveOk : ExtensionManagerState :=
  { emStub with remove_extension_result := fun _ => .ok () }

/-- A world with a live Extension Manager, a router that reports functional
but yields no selector, and an always-successful index service. -/
def wFunctionalNoSelector : World :=
  { extension_manager := some (some emRemoveOk),
    tool_route_manager := some (some trmFunctionalNoSelector),
    update_extension_tools := fun _ _ _ => .ok (),
    get_extension_by_name := fun _ => none }

/-- C3 counterexample: the Tool Route Manager resolves and reports its router
functional, yet — because `get_router_tool_selector` yields no selector — a
Disable run performs the registry removal with no index update at all, so the
index is not "updated before any registry change" as the claim states. -/
theorem C3_counterexample :
    (trmLive wFunctionalNoSelector).map ToolRouteManagerState.is_router_functional =
      some true ∧
    (emLive wFunctionalNoSelector).isSome = true ∧
    (ExtensionManagerClient.manage_extensions_impl wFunctionalNoSelector
        .disable "slack").2 = [Event.registryRemove "slack"] :=
  ⟨rfl, rfl, rfl⟩

/-- C3 (amended): when additionally a router tool selector is available, every
orchestration run with a live Extension Manager updates the index for the
extension first — "remove" for Disable, "add" otherwise — before any registry
event; and a pre-sync failure aborts the run with the index-update
`OperationFailed` message and an empty registry trace. -/
theorem C3_presync_before_registry (w : World) (a : ManageExtensionAction)
    (name : String) (em : ExtensionManagerState) (t : ToolRouteManagerState)
    (hem : emLive w = some em) (htrm : trmLive w = some t)
    (hfun : t.is_router_functional = true)
    (hsel : t.router_tool_selector.isSome = true) :
    (∃ rest, (ExtensionManagerClient.manage_extensions_impl w a name).2 =
      Event.indexUpdate name (if a == ManageExtensionAction.disable then "remove" else "add")
        :: rest) ∧
    (∀ e, w.update_extension_tools 0 name
        (if a == ManageExtensionAction.disable then "remove" else "add") = .error e →
      ExtensionManagerClient.manage_extensions_impl w a name =
        (.error { code := .internalError, message := "Failed to update LLM index: " ++ e },
         [Event.indexUpdate name
           (if a == ManageExtensionAction.disable then "remove" else "add")])) := by
  have hsync : indexSyncAttempted (trmLive w) = true := by
    rw [htrm]; simp [indexSyncAttempted, hfun, hsel]
  have hact : selectorActionFor a =
      (if a == ManageExtensionAction.disable then "remove" else "add") := rfl
  constructor
  · rw [← hact]
    simp only [ExtensionManagerClient.manage_extensions_impl, hem, hsync, if_true]
    cases hu : w.update_extension_tools 0 name (selectorActionFor a) with
    | error e => exact ⟨[], rfl⟩
    | ok u =>
      obtain ⟨suffix, hsuf⟩ := applyChange_trace_prefix w em (trmLive w) a name
        [Event.indexUpdate name (selectorActionFor a)] 1
      exact ⟨suffix, hsuf.symm⟩
  · intro e he
    rw [← hact] at he ⊢
    simp only [ExtensionManagerClient.manage_extensions_impl, hem, hsync, if_true, he]

/-- A world with a live Extension Manager and a functional router with a
selector, whose index service rejects every update. -/
def wPreSyncFail : World :=
  { extension_manager := some (some emStub),
    tool_route_manager := some (some trmFunctional),
    update_extension_tools := fun _ _ _ => .error "index down",
    get_extension_by_name := fun _ => none }

/-- C3 witness: with a live functional router (selector available) and a
failing index service, a Disable run aborts with the index-update failure
message and no registry event. -/
theorem C3_witness :
    ExtensionManagerClient.manage_extensions_impl wPreSyncFail .disable "slack" =
      (.error { code := .internalError,
                message := "Failed to update LLM index: index down" },
       [Event.indexUpdate "slack" "remove"]) := by
  have h := C3_presync_before_registry wPreSyncFail .disable "slack" emStub trmFunctional
    rfl rfl rfl rfl
  exact h.2 "index down" rfl

/-! ## C4 -/

/-- C4: an Enable run whose extension name is absent from the catalog (with
the Extension Manager live and the pre-sync index update, if attempted,
succeeding) terminates with the not-found error naming the extension, and the
event trace is exactly the speculative pre-sync "add" (present precisely when
the router was functional with a selector): no rollback and no further index
update after the failed lookup. -/
theorem C4_enable_unknown_extension (w : World) (name : String)
    (em : ExtensionManagerState)
    (hem : emLive w = some em)
    (hcat : w.get_extension_by_name name = none)
    (hpre : w.update_extension_tools 0 name "add" = .ok ()) :
    ExtensionManagerClient.manage_extensions_impl w .enable name =
      (.error { code := .resourceNotFound,
                message := "Extension '" ++ name ++
                  "' not found. Please check the extension name and try again." },
       if indexSyncAttempted (trmLive w) then [Event.indexUpdate name "add"] else []) ∧
    (∃ pre post, ("Extension '" ++ name ++
        "' not found. Please check the extension name and try again.") =
      pre ++ name ++ post) := by
  constructor
  · have hact : selectorActionFor ManageExtensionAction.enable = "add" := rfl
    have hneq : (ManageExtensionAction.enable == ManageExtensionAction.disable) = false := rfl
    cases hs : indexSyncAttempted (trmLive w) with
    | true =>
      simp only [ExtensionManagerClient.manage_extensions_impl, hem, hs, if_true, hact, hpre,
        ExtensionManagerClient.applyChange, hneq, Bool.false_eq_true, if_false, hcat]
    | false =>
      simp only [ExtensionManagerClient.manage_extensions_impl, hem, hs, Bool.false_eq_true,
        if_false, ExtensionManagerClient.applyChange, hneq, hcat]
  · exact ⟨"Extension '", "' not found. Please check the extension name and try again.", rfl⟩

/-- A world with a live Extension Manager, a functional router with a
selector, a healthy index service, and an empty catalog. -/
def wEnableUnknown : World :=
  { extension_manager := some (some emStub),
    tool_route_manager := some (some trmFunctional),
    update_extension_tools := fun _ _ _ => .ok (),
    get_extension_by_name := fun _ => none }

/-- C4 witness: enabling the unknown name "ghost" with a functional router
leaves exactly the speculative index "add" in the trace and returns the
not-found error. -/
theorem C4_witness :
    ExtensionManagerClient.manage_extensions_impl wEnableUnknown .enable "ghost" =
      (.error { code := .resourceNotFound,
                message :=
                  "Extension 'ghost' not found. Please check the extension name and try again." },
       [Event.indexUpdate "ghost" "add"]) := by
  have h := (C4_enable_unknown_extension wEnableUnknown "ghost" emStub rfl rfl rfl).1
  exact h

/-! ## C5 -/

/-- Dispatching the name `manage_extensions` on the Extension Manager adapter
selects the manage handler. -/
theorem em_dispatch_manage (w : World) (args : Option JsonObject) :
    ExtensionManagerClient.dispatch w MANAGE_EXTENSIONS_TOOL_NAME args =
      ExtensionManagerClient.handle_manage_extensions w args := rfl

/-- C5: enabling "developer" with a live Extension Manager, a functional
router with a selector, a successful catalog lookup, a successful install and
a successful pre-sync performs exactly two index "add" updates (one before and
one after the install) around the registry add, returning the single success
message; if instead the post-install index update fails, the call returns the
rendered `OperationFailed` result even though the install event already
happened. -/
theorem C5_enable_developer_two_index_updates (w : World)
    (em : ExtensionManagerState) (t : ToolRouteManagerState) (cfg : ExtensionConfig)
    (hem : emLive w = some em) (htrm : trmLive w = some t)
    (hfun : t.is_router_functional = true)
    (hsel : t.router_tool_selector.isSome = true)
    (hcat : w.get_extension_by_name "developer" = some cfg)
    (hadd : em.add_extension_result cfg = .ok ())
    (hpre : w.update_extension_tools 0 "developer" "add" = .ok ()) :
    (w.update_extension_tools 1 "developer" "add" = .ok () →
      ExtensionManagerClient.call_tool w MANAGE_EXTENSIONS_TOOL_NAME
          (some [("action", Json.str "enable"), ("extension_name", Json.str "developer")]) =
        (.ok (CallToolResult.success
            [Content.text "The extension 'developer' has been installed successfully"]),
         [Event.indexUpdate "developer" "add", Event.registryAdd cfg,
          Event.indexUpdate "developer" "add"])) ∧
    (∀ e, w.update_extension_tools 1 "developer" "add" = .error e →
      ExtensionManagerClient.call_tool w MANAGE_EXTENSIONS_TOOL_NAME
          (some [("action", Json.str "enable"), ("extension_name", Json.str "developer")]) =
        (.ok { content := [Content.text
                ("Extension operation failed: " ++ ("Failed to update LLM index: " ++ e))],
               is_error := some true, structured_content := none },
         [Event.indexUpdate "developer" "add", Event.registryAdd cfg,
          Event.indexUpdate "developer" "add"])) := by
  have hsync : indexSyncAttempted (trmLive w) = true := by
    rw [htrm]; simp [indexSyncAttempted, hfun, hsel]
  have hact : selectorActionFor ManageExtensionAction.enable = "add" := rfl
  have hneq : (ManageExtensionAction.enable == ManageExtensionAction.disable) = false := rfl
  have hdeser : deserializeManageExtensionsParams
      [("action", Json.str "enable"), ("extension_name", Json.str "developer")] =
      .ok { action := .enable, extension_name := "developer" } := rfl
  constructor
  · intro hpost
    have himpl : ExtensionManagerClient.manage_extensions_impl w .enable "developer" =
        (.ok [Content.text "The extension 'developer' has been installed successfully"],
         [Event.indexUpdate "developer" "add", Event.registryAdd cfg,
          Event.indexUpdate "developer" "add"]) := by
      simp only [ExtensionManagerClient.manage_extensions_impl, hem, hsync, if_true, hact,
        hpre, ExtensionManagerClient.applyChange, hneq, Bool.false_eq_true, if_false, hcat,
        hadd, hpost]
      rfl
    have hh : ExtensionManagerClient.handle_manage_extensions w
        (some [("action", Json.str "enable"), ("extension_name", Json.str "developer")]) =
        (.ok [Content.text "The extension 'developer' has been installed successfully"],
         [Event.indexUpdate "developer" "add", Event.registryAdd cfg,
          Event.indexUpdate "developer" "add"]) := by
      simp only [ExtensionManagerClient.handle_manage_extensions, hdeser, himpl]
    simp only [ExtensionManagerClient.call_tool, em_dispatch_manage, hh]
  · intro e hpost
    have himpl : ExtensionManagerClient.manage_extensions_impl w .enable "developer" =
        (.error { code := .internalError,
                  message := "Failed to update LLM index: " ++ e },
         [Event.indexUpdate "developer" "add", Event.registryAdd cfg,
          Event.indexUpdate "developer" "add"]) := by
      simp only [ExtensionManagerClient.manage_extensions_impl, hem, hsync, if_true, hact,
        hpre, ExtensionManagerClient.applyChange, hneq, Bool.false_eq_true, if_false, hcat,
        hadd, hpost]
      rfl
    have hh : ExtensionManagerClient.handle_manage_extensions w
        (some [("action", Json.str "enable"), ("extension_name", Json.str "developer")]) =
        (.error (.operationFailed ("Failed to update LLM index: " ++ e)),
         [Event.indexUpdate "developer" "add", Event.registryAdd cfg,
          Event.indexUpdate "developer" "add"]) := by
      simp only [ExtensionManagerClient.handle_manage_extensions, hdeser, himpl]
    simp only [ExtensionManagerClient.call_tool, em_dispatch_manage, hh,
      ExtensionManagerToolError.render]

/-- The catalog entry for the extension named "developer". -/
def cfgDeveloper : ExtensionConfig := { tag := "developer" }

/-- An Extension Manager whose installs succeed. -/
def emAddOk : ExtensionManagerState :=
  { emStub with add_extension_result := fun _ => .ok () }

/-- A world in which enabling "developer" succeeds end to end: live Extension
Manager, functional router with selector, healthy index service, catalog entry
for "developer". -/
def wEnableDeveloper : World :=
  { extension_manager := some (some emAddOk),
    tool_route_manager := some (some trmFunctional),
    update_extension_tools := fun _ _ _ => .ok (),
    get_extension_by_name := fun n =>
      if n == "developer" then some cfgDeveloper else none }

/-- C5 witness: the end-to-end Enable of "developer" performs the pre and post
index "add" updates around the registry add and returns the success message. -/
theorem C5_witness :
    ExtensionManagerClient.call_tool wEnableDeveloper MANAGE_EXTENSIONS_TOOL_NAME
        (some [("action", Json.str "enable"), ("extension_name", Json.str "developer")]) =
      (.ok (CallToolResult.success
          [Content.text "The extension 'developer' has been installed successfully"]),
       [Event.indexUpdate "developer" "add", Event.registryAdd cfgDeveloper,
        Event.indexUpdate "developer" "add"]) := by
  have h := C5_enable_developer_two_index_updates wEnableDeveloper emAddOk trmFunctional
    cfgDeveloper rfl rfl rfl rfl rfl rfl rfl
  exact h.1 rfl

/-! ## C6 -/

/-- An Extension Manager whose registry removal always fails, naming the
extension in its error text. -/
def emRemoveFail : ExtensionManagerState :=
  { emStub with
    remove_extension_result := fun n => .error ("No extension named " ++ n) }

/-- A world with a live Extension Manager whose removals fail and a router
that is functional but yields no selector. -/
def wDisableNoSelector : World :=
  { extension_manager := some (some emRemoveFail),
    tool_route_manager := some (some trmFunctionalNoSelector),
    update_extension_tools := fun _ _ _ => .ok (),
    get_extension_by_name := fun _ => none }

/-- C6 counterexample: the router is live and reports functional, yet no index
removal is attempted before the registry removal (the selector is absent), so
the run's trace holds only the registry event — against the claim's "an index
remove update is attempted (when the router is live and functional)". -/
theorem C6_counterexample :
    (trmLive wDisableNoSelector).map ToolRouteManagerState.is_router_functional =
      some true ∧
    ExtensionManagerClient.manage_extensions_impl wDisableNoSelector
        .disable "notenabled" =
      (.error { code := .internalError, message := "No extension named notenabled" },
       [Event.registryRemove "notenabled"]) :=
  ⟨rfl, rfl⟩

/-- C6 (amended): when the router is live, functional *and* yields a selector,
every Disable run (whether or not the extension is enabled — the registry
outcome is arbitrary) issues the index "remove" strictly before the registry
removal; a registry failure surfaces its message verbatim as the
`OperationFailed` payload, with the index removal still in the trace (not
rolled back). -/
theorem C6_disable_index_remove_before_registry (w : World) (name : String)
    (em : ExtensionManagerState) (t : ToolRouteManagerState)
    (hem : emLive w = some em) (htrm : trmLive w = some t)
    (hfun : t.is_router_functional = true)
    (hsel : t.router_tool_selector.isSome = true)
    (hpre : w.update_extension_tools 0 name "remove" = .ok ()) :
    (ExtensionManagerClient.manage_extensions_impl w .disable name).2 =
      [Event.indexUpdate name "remove", Event.registryRemove name] ∧
    (∀ e, em.remove_extension_result name = .error e →
      ExtensionManagerClient.manage_extensions_impl w .disable name =
        (.error { code := .internalError, message := e },
         [Event.indexUpdate name "remove", Event.registryRemove name])) := by
  have hsync : indexSyncAttempted (trmLive w) = true := by
    rw [htrm]; simp [indexSyncAttempted, hfun, hsel]
  have hact : selectorActionFor ManageExtensionAction.disable = "remove" := rfl
  have heq : (ManageExtensionAction.disable == ManageExtensionAction.disable) = true := rfl
  constructor
  · simp only [ExtensionManagerClient.manage_extensions_impl, hem, hsync, if_true, hact,
      hpre, ExtensionManagerClient.applyChange, heq]
    cases hr : em.remove_extension_result name <;> rfl
  · intro e he
    simp only [ExtensionManagerClient.manage_extensions_impl, hem, hsync, if_true, hact,
      hpre, ExtensionManagerClient.applyChange, heq, he]
    rfl

/-- A world with failing removals but a fully functional router and index. -/
def wDisableRemoveFail : World :=
  { extension_manager := some (some emRemoveFail),
    tool_route_manager := some (some trmFunctional),
    update_extension_tools := fun _ _ _ => .ok (),
    get_extension_by_name := fun _ => none }

/-- C6 witness: disabling "jira" issues the index removal first, then the
failing registry removal, whose message is carried verbatim. -/
theorem C6_witness :
    ExtensionManagerClient.manage_extensions_impl wDisableRemoveFail .disable "jira" =
      (.error { code := .internalError, message := "No extension named jira" },
       [Event.indexUpdate "jira" "remove", Event.registryRemove "jira"]) := by
  have h := C6_disable_index_remove_before_registry wDisableRemoveFail "jira" emRemoveFail
    trmFunctional rfl rfl rfl rfl rfl
  exact h.2 "No extension named jira" rfl

/-! ## C8 -/

/-- C8 counterexample: a live Extension Manager that would answer both
resource operations; the protocol-level `list_resources` and `read_resource`
still fail with the closed-transport error (they are not forwarded), against
the claim that they are forwarded when the manager is live and fail
closed-transport only when no manager is reachable. -/
theorem C8_counterexample :
    (emLive wResourcesLive).isSome = true ∧
    CoreClient.protocol_list_resources wResourcesLive = .error .transportClosed ∧
    CoreClient.protocol_read_resource wResourcesLive "file:a.txt" =
      .error .transportClosed ∧
    CoreClient.handle_list_resources wResourcesLive (some []) =
      .ok [Content.text "resource list"] :=
  ⟨rfl, rfl, rfl, rfl⟩

/-- C8 (amended): the protocol-level `list_resources` and `read_resource` on
both adapters always fail at the transport level with the closed-transport
error, whatever the backing state; the forward-to-the-Extension-Manager and
`ManagerUnavailable` behaviour described by the claim belongs to the
same-named tool calls dispatched through `call_tool` on the Core adapter. -/
theorem C8_protocol_resources_always_closed (w : World) (uri : String)
    (args : Option JsonObject) :
    CoreClient.protocol_list_resources w = .error .transportClosed ∧
    CoreClient.protocol_read_resource w uri = .error .transportClosed ∧
    ExtensionManagerClient.protocol_list_resources w = .error .transportClosed ∧
    ExtensionManagerClient.protocol_read_resource w uri = .error .transportClosed ∧
    (emLive w = none →
      CoreClient.handle_list_resources w args = .error .managerUnavailable ∧
      CoreClient.handle_read_resource w args = .error .managerUnavailable) ∧
    (∀ em, emLive w = some em →
      (∀ c, em.list_resources_result (Json.obj (args.getD [])) = .ok c →
        CoreClient.handle_list_resources w args = .ok c) ∧
      (∀ c, em.read_resource_result (Json.obj (args.getD [])) = .ok c →
        CoreClient.handle_read_resource w args = .ok c)) := by
  refine ⟨rfl, rfl, rfl, rfl, ?_, ?_⟩
  · intro h0
    cases hm : w.extension_manager with
    | none =>
      exact ⟨by simp [CoreClient.handle_list_resources, hm],
        by simp [CoreClient.handle_read_resource, hm]⟩
    | some inner =>
      cases inner with
      | none =>
        exact ⟨by simp [CoreClient.handle_list_resources, hm],
          by simp [CoreClient.handle_read_resource, hm]⟩
      | some em => simp [emLive, hm] at h0
  · intro em hsome
    have hm : w.extension_manager = some (some em) := by
      cases hm : w.extension_manager with
      | none => simp [emLive, hm] at hsome
      | some inner =>
        cases inner with
        | none => simp [emLive, hm] at hsome
        | some em' =>
          have heq : em' = em := by simpa [emLive, hm] using hsome
          rw [heq]
    exact ⟨fun c hc => by simp [CoreClient.handle_list_resources, hm, hc],
      fun c hc => by simp [CoreClient.handle_read_resource, hm, hc]⟩

/-- C8 witness: at the empty world, the protocol-level operation is
closed-transport and the same-named tool handler reports the manager
unavailable. -/
theorem C8_witness :
    CoreClient.protocol_list_resources wEmpty = .error .transportClosed ∧
    CoreClient.handle_list_resources wEmpty none = .error .managerUnavailable := by
  have h := C8_protocol_resources_always_closed wEmpty "file:x" none
  exact ⟨h.1, (h.2.2.2.2.1 rfl).1⟩

/-! ## C9 -/

/-- The Extension Manager adapter's dispatch never produces the
`InvalidAction` error: that variant is declared but unreachable. -/
theorem emDispatch_never_invalidAction (w : World) (n : String)
    (args : Option JsonObject) (a : String) :
    (ExtensionManagerClient.dispatch w n args).1 ≠
      .error (ExtensionManagerToolError.invalidAction a) := by
  unfold ExtensionManagerClient.dispatch
  split
  · unfold ExtensionManagerClient.handle_search_available_extensions
    split
    · split
      · split <;> simp
      · simp
    · simp
  · split
    · unfold ExtensionManagerClient.handle_manage_extensions
      split
      · simp
      · split
        · simp
        · split <;> simp
    · simp

/-- C9 counterexample: a `manage_extensions` call whose action value
"install" is outside the recognized set is rendered as the
`DeserializationError` message, not the `InvalidAction` one the claim
requires. -/
theorem C9_counterexample :
    (ExtensionManagerClient.call_tool wEmpty MANAGE_EXTENSIONS_TOOL_NAME
        (some [("action", Json.str "install"), ("extension_name", Json.str "x")])).1 =
      .ok { content := [Content.text
              "Failed to deserialize parameters: unknown variant `install`, expected `enable` or `disable`"],
            is_error := some true, structured_content := none } ∧
    (ExtensionManagerClient.dispatch wEmpty MANAGE_EXTENSIONS_TOOL_NAME
        (some [("action", Json.str "install"), ("extension_name", Json.str "x")])).1 =
      .error (.deserializationError
        "unknown variant `install`, expected `enable` or `disable`") ∧
    "Failed to deserialize parameters: unknown variant `install`, expected `enable` or `disable`" ≠
      (ExtensionManagerToolError.invalidAction "install").render :=
  ⟨rfl, rfl, by decide⟩

/-- C9 (amended): an action value outside the recognized set fails serde
deserialization, so the call carries the `DeserializationError` kind (with
the unknown-variant message); the `InvalidAction` kind, though declared in
the taxonomy, is never produced by the dispatch path. -/
theorem C9_invalid_action_yields_deserialization_error (w : World) (s : String)
    (o : JsonObject)
    (hs1 : s ≠ "enable") (hs2 : s ≠ "disable")
    (hlook : jsonLookup "action" o = some (Json.str s)) :
    ExtensionManagerClient.handle_manage_extensions w (some o) =
      (.error (.deserializationError
        ("unknown variant `" ++ s ++ "`, expected `enable` or `disable`")), []) ∧
    (ExtensionManagerClient.call_tool w MANAGE_EXTENSIONS_TOOL_NAME (some o)).1 =
      .ok { content := [Content.text ("Failed to deserialize parameters: " ++
              ("unknown variant `" ++ s ++ "`, expected `enable` or `disable`"))],
            is_error := some true, structured_content := none } ∧
    (∀ n args a, (ExtensionManagerClient.dispatch w n args).1 ≠
      .error (ExtensionManagerToolError.invalidAction a)) := by
  have hb1 : (s == "enable") = false := beq_eq_false_iff_ne.mpr hs1
  have hb2 : (s == "disable") = false := beq_eq_false_iff_ne.mpr hs2
  have hdeser : deserializeManageExtensionsParams o =
      .error ("unknown variant `" ++ s ++ "`, expected `enable` or `disable`") := by
    simp only [deserializeManageExtensionsParams, hlook, parseManageExtensionAction, hb1,
      hb2, Bool.false_eq_true, if_false]
  have hh : ExtensionManagerClient.handle_manage_extensions w (some o) =
      (.error (.deserializationError
        ("unknown variant `" ++ s ++ "`, expected `enable` or `disable`")), []) := by
    simp only [ExtensionManagerClient.handle_manage_extensions, hdeser]
  refine ⟨hh, ?_, fun n args a => emDispatch_never_invalidAction w n args a⟩
  simp only [ExtensionManagerClient.call_tool, em_dispatch_manage, hh,
    ExtensionManagerToolError.render]

/-- C9 witness: the out-of-set action "frobnicate" produces the
`DeserializationError` kind. -/
theorem C9_witness :
    ExtensionManagerClient.handle_manage_extensions wResourcesLive
        (some [("action", Json.str "frobnicate"), ("extension_name", Json.str "dev")]) =
      (.error (.deserializationError
        "unknown variant `frobnicate`, expected `enable` or `disable`"), []) := by
  have h := C9_invalid_action_yields_deserialization_error wResourcesLive "frobnicate"
    [("action", Json.str "frobnicate"), ("extension_name", Json.str "dev")]
    (by decide) (by decide) rfl
  exact h.1
